import Mathlib

/-!
Verification of the Lucid-UI conversation IR, its Vercel wire-format
adapter, the streaming consumption engine, the markdown repair heuristic,
and the conversation status aggregator.

Each definition is a shallow embedding of the corresponding TypeScript
function from the repository (file and function named in the doc comment).
-/

set_option maxRecDepth 4096

-- ============================================================================
-- IR data model (packages/core/src/index.ts)
-- ============================================================================

/-- Conversation roles (`ConversationRole` in core). -/
inductive ConversationRole
  | user
  | assistant
  | system
deriving DecidableEq, Repr

/-- Status for conversations and blocks (`ContentStatus` in core). -/
inductive ContentStatus
  | streaming
  | completed
  | error
deriving DecidableEq, Repr

/-- Block types supported by Lucid IR (`BlockType` in core). -/
inductive BlockType
  | text
  | tool
  | thinking
  | image
  | file
  | error
  | source
deriving DecidableEq, Repr

/-- Nine-state tool execution status (`ToolStatus` in core). -/
inductive ToolStatus
  | pending
  | streaming
  | ready
  | running
  | approvalRequired
  | approved
  | denied
  | success
  | error
deriving DecidableEq, Repr

/-- Source type for source blocks (`SourceType` in core). -/
inductive SourceType
  | url
  | document
deriving DecidableEq, Repr

/-- User approval response for tool execution (`ToolApproval` in core). -/
structure ToolApproval where
  id : String
  approved : Option Bool
  reason : Option String
deriving Repr

/-- JSON values, used for the `unknown`-typed `input` / `output` fields of
tool parts and tool block content.  Numbers are modelled as integers. -/
inductive Json
  | null
  | bool (b : Bool)
  | num (n : Int)
  | str (s : String)
  | arr (elems : List Json)
  | obj (fields : List (String × Json))
deriving Repr

/-- Block content, a closed tagged variant: the shape is tied to the block
type (`TextBlockContent`, `ToolBlockContent`, ... in core). -/
inductive BlockContent
  | text (text : String)
  | tool (name : String) (input : Json) (output : Option Json)
      (status : ToolStatus) (error : Option String) (approval : Option ToolApproval)
  | thinking (reasoning : String)
  | image (url : String) (alt : Option String) (width : Option Nat) (height : Option Nat)
  | file (name : String) (mime : String) (url : String) (size : Option Nat)
  | error (code : String) (message : String)
  | source (sourceId : String) (sourceType : SourceType) (title : String)
      (url : Option String) (mediaType : Option String) (filename : Option String)
      (excerpt : Option String)
deriving Repr

/-- A content block within a conversation (`LucidBlock` in core). -/
structure LucidBlock where
  id : String
  type : BlockType
  status : ContentStatus
  content : BlockContent
deriving Repr

/-- A conversation message containing blocks (`LucidConversation` in core). -/
structure LucidConversation where
  id : String
  role : ConversationRole
  status : ContentStatus
  blocks : List LucidBlock
  timestamp : Nat
deriving Repr

-- ============================================================================
-- Tool status helpers (packages/core/src/index.ts, lines 409-425)
-- ============================================================================

/-- The tool status carried by a block's content, when the content is a tool
content (`block.content.status` on a `LucidBlock` of type `tool`). -/
def toolStatusOf (b : LucidBlock) : Option ToolStatus :=
  match b.content with
  | .tool _ _ _ st _ _ => some st
  | _ => none

/-- Embedding of `isToolAwaitingApproval`: `block.content.status === 'approval-required'`. -/
def isToolAwaitingApproval (b : LucidBlock) : Bool :=
  toolStatusOf b = some ToolStatus.approvalRequired

/-- Embedding of `isToolTerminal`: `['success', 'error', 'denied'].includes(block.content.status)`. -/
def isToolTerminal (b : LucidBlock) : Bool :=
  match toolStatusOf b with
  | some st => [ToolStatus.success, ToolStatus.error, ToolStatus.denied].contains st
  | none => false

/-- Embedding of `isToolExecuting`: `['running', 'approved'].includes(block.content.status)`. -/
def isToolExecuting (b : LucidBlock) : Bool :=
  match toolStatusOf b with
  | some st => [ToolStatus.running, ToolStatus.approved].contains st
  | none => false

-- ============================================================================
-- Wire format (adapter-vercel, src/unnamed/part_009)
-- ============================================================================

/-- Vercel AI SDK message parts, the union `VercelMessagePart` of the
adapter.  Wire tool states and text/reasoning states are strings at
runtime (the adapter's `switch` has a `default` branch for unknown or
missing states), so `state` is modelled as `Option String`.  The `tool`
constructor keeps the raw tag (`tool-<name>` or `dynamic-tool`) in
`ptype`, as the adapter inspects it with `startsWith`.  `unknown` covers
every other part type. -/
inductive VercelMessagePart
  | text (text : String) (state : Option String)
  | reasoning (text : String) (state : Option String)
  | file (mediaType : String) (filename : Option String) (url : String)
  | sourceUrl (sourceId : String) (url : String) (title : Option String)
  | sourceDocument (sourceId : String) (mediaType : String) (title : String)
      (filename : Option String)
  | tool (ptype : String) (toolName : Option String) (toolCallId : String)
      (state : Option String) (input : Option Json) (output : Option Json)
      (errorText : Option String) (approval : Option ToolApproval)
  | unknown (tag : String)
deriving Repr

/-- A Vercel UI message (`VercelUIMessage` in the adapter). -/
structure VercelUIMessage where
  id : String
  role : ConversationRole
  parts : List VercelMessagePart
deriving Repr

-- ============================================================================
-- Forward conversion (src/unnamed/part_009, lines 152-355)
-- ============================================================================

/-- Embedding of `convertToolState` (part_009 lines 152-171): the `switch`
over the wire tool state, with the `default` branch returning `pending`
for any other or missing state. -/
def convertToolState (state : Option String) : ToolStatus :=
  match state with
  | some s =>
    if s = "input-streaming" then .streaming
    else if s = "input-available" then .ready
    else if s = "approval-requested" then .approvalRequired
    else if s = "approval-responded" then .approved
    else if s = "output-available" then .success
    else if s = "output-error" then .error
    else if s = "output-denied" then .denied
    else .pending
  | none => .pending

/-- Executable string prefix test (same function as `String.startsWith`,
stated on the character lists so that it evaluates by `rfl`/`decide`). -/
def strStartsWith (s pre : String) : Bool :=
  pre.data.isPrefixOf s.data

/-- Executable drop of the first `n` characters of a string (same function
as `String.drop` for these ASCII tags). -/
def strDrop (s : String) (n : Nat) : String :=
  ⟨s.data.drop n⟩

/-- Embedding of `extractToolName` (part_009 lines 176-182): for
`dynamic-tool` the explicit name (default `"unknown"`), otherwise the tag
with a leading `tool-` stripped (the anchored regex replace). -/
def extractToolName (ptype : String) (toolName : Option String) : String :=
  if ptype = "dynamic-tool" then toolName.getD "unknown"
  else if strStartsWith ptype "tool-" then strDrop ptype 5
  else ptype

/-- The `state` field of a part, when present (`'state' in part`). -/
def partState : VercelMessagePart → Option String
  | .text _ st => st
  | .reasoning _ st => st
  | .tool _ _ _ st _ _ _ _ => st
  | _ => none

/-- Embedding of `inferBlockStatus` (part_009 lines 187-197). -/
def inferBlockStatus (p : VercelMessagePart) : ContentStatus :=
  match partState p with
  | some s =>
    if s = "streaming" ∨ s = "input-streaming" then .streaming
    else if s = "output-error" then .error
    else .completed
  | none => .completed

/-- Embedding of `convertPartToBlock` (part_009 lines 202-313).  The block
id produced by the injected/default generator is passed in as `genId`;
unknown part types are skipped (`null` becomes `none`). -/
def convertPartToBlock (genId : String) (p : VercelMessagePart) : Option LucidBlock :=
  match p with
  | .text t st =>
    some { id := genId, type := .text,
           status := if st = some "streaming" then .streaming else .completed,
           content := .text t }
  | .reasoning t st =>
    some { id := genId, type := .thinking,
           status := if st = some "streaming" then .streaming else .completed,
           content := .thinking t }
  | .file mediaType filename url =>
    some { id := genId, type := .file, status := .completed,
           content := .file (filename.getD "file") mediaType url none }
  | .sourceUrl sourceId url title =>
    some { id := genId, type := .source, status := .completed,
           content := .source sourceId .url (title.getD url) (some url) none none none }
  | .sourceDocument sourceId mediaType title filename =>
    some { id := genId, type := .source, status := .completed,
           content := .source sourceId .document title none (some mediaType) filename none }
  | .tool ptype toolName _ st input output errorText approval =>
    if strStartsWith ptype "tool-" ∨ ptype = "dynamic-tool" then
      some { id := genId, type := .tool,
             status := inferBlockStatus p,
             content := .tool (extractToolName ptype toolName) (input.getD (Json.obj []))
               output (convertToolState st) errorText approval }
    else none
  | .unknown _ => none

/-- A part is supported exactly when `convertPartToBlock` has a producing
branch for it (every branch of the dispatch except the final `return null`). -/
def supportedPart : VercelMessagePart → Bool
  | .unknown _ => false
  | .tool ptype _ _ _ _ _ _ _ => strStartsWith ptype "tool-" || ptype = "dynamic-tool"
  | _ => true

/-- The block-collection loop of `fromVercelMessage` (part_009 lines
324-333): parts are filtered, converted, and pushed in order.  The id
generator is modelled as a function of how many blocks have been produced
so far (the default generator increments a counter per produced block). -/
def collectBlocks (gen : Nat → String) (filterPart : VercelMessagePart → Bool) :
    Nat → List VercelMessagePart → List LucidBlock
  | _, [] => []
  | n, p :: rest =>
    if filterPart p then
      match convertPartToBlock (gen n) p with
      | some b => b :: collectBlocks gen filterPart (n + 1) rest
      | none => collectBlocks gen filterPart n rest
    else collectBlocks gen filterPart n rest

/-- The conversation status inference loop of `fromVercelMessage` (part_009
lines 335-346), with the running `status` variable as accumulator: a
`streaming` block returns immediately, an `error` block sets the
accumulator and the scan continues. -/
def statusLoop : ContentStatus → List LucidBlock → ContentStatus
  | acc, [] => acc
  | acc, b :: rest =>
    if b.status = .streaming then .streaming
    else if b.status = .error then statusLoop .error rest
    else statusLoop acc rest

/-- Status aggregation over a block list, starting from `completed`. -/
def statusFromBlocks (blocks : List LucidBlock) : ContentStatus :=
  statusLoop .completed blocks

/-- Embedding of `fromVercelMessage` (part_009 lines 318-355).  `filterPart`
is the optional filter from the options (default keeps every part), `gen`
the block-id generator and `now` the timestamp. -/
def fromVercelMessage (gen : Nat → String) (filterPart : Option (VercelMessagePart → Bool))
    (now : Nat) (message : VercelUIMessage) : LucidConversation :=
  let blocks := collectBlocks gen (filterPart.getD (fun _ => true)) 0 message.parts
  { id := message.id, role := message.role,
    status := statusFromBlocks blocks, blocks := blocks, timestamp := now }

-- ============================================================================
-- Reverse conversion (src/unnamed/part_009, lines 386-525)
-- ============================================================================

/-- Embedding of `convertToolStatusToVercel` (part_009 lines 478-499). -/
def convertToolStatusToVercel (status : ToolStatus) : String :=
  match status with
  | .pending => "input-streaming"
  | .streaming => "input-streaming"
  | .ready => "input-available"
  | .approvalRequired => "approval-requested"
  | .approved => "approval-responded"
  | .running => "approval-responded"
  | .success => "output-available"
  | .error => "output-error"
  | .denied => "output-denied"

/-- Embedding of `convertBlockToParts` (part_009 lines 386-473): the
`switch` on `block.type`, reading the content of the matching shape (the
TypeScript type system ties the content shape to the block type); types
with no case (`image`, `error`) return the empty list. -/
def convertBlockToParts (b : LucidBlock) : List VercelMessagePart :=
  match b.type, b.content with
  | .text, .text t =>
    [.text t (some (if b.status = .streaming then "streaming" else "done"))]
  | .thinking, .thinking r =>
    [.reasoning r (some (if b.status = .streaming then "streaming" else "done"))]
  | .file, .file name mime url _ =>
    [.file mime (some name) url]
  | .source, .source sourceId sourceType title url mediaType filename _ =>
    if sourceType = .url then
      [.sourceUrl sourceId (url.getD "") (some title)]
    else
      [.sourceDocument sourceId (mediaType.getD "") title filename]
  | .tool, .tool name input output status error approval =>
    [.tool "dynamic-tool" (some name) b.id (some (convertToolStatusToVercel status))
      (some input) output error approval]
  | _, _ => []

-- ============================================================================
-- Markdown repair (packages/stream/src/utils.ts, healMarkdown, lines 18-48)
-- ============================================================================

/-- Number of non-overlapping triple-backtick fences, as counted by the
global regex match on three backticks. -/
def countFence : List Char → Nat
  | '`' :: '`' :: '`' :: rest => countFence rest + 1
  | _ :: rest => countFence rest
  | [] => 0

/-- Number of non-overlapping double-asterisk bold markers, as counted by
the global regex match on two asterisks. -/
def countBold : List Char → Nat
  | '*' :: '*' :: rest => countBold rest + 1
  | _ :: rest => countBold rest
  | [] => 0

/-- Number of occurrences of `m` not adjacent to another `m`, the count of
the lookaround regex used for inline code and italics; `prev` is the
character just before the current position. -/
def countSingle (m : Char) : Option Char → List Char → Nat
  | prev, c :: rest =>
    (if c = m ∧ prev ≠ some m ∧ rest.head? ≠ some m then 1 else 0) +
      countSingle m (some c) rest
  | _, [] => 0

/-- Isolated single backticks of a string (inline-code markers). -/
def countInline (s : String) : Nat := countSingle '`' none s.data

/-- Isolated single asterisks of a string (italic markers). -/
def countItalic (s : String) : Nat := countSingle '*' none s.data

/-- First repair step of `healMarkdown`: close an odd number of
triple-backtick fences. -/
def healFence (s : String) : String :=
  if countFence s.data % 2 = 1 then s ++ "\n```" else s

/-- Second repair step of `healMarkdown`: close an odd number of isolated
inline-code backticks. -/
def healInline (s : String) : String :=
  if countInline s % 2 = 1 then s ++ "`" else s

/-- Third repair step of `healMarkdown`: close an odd number of bold
markers. -/
def healBold (s : String) : String :=
  if countBold s.data % 2 = 1 then s ++ "**" else s

/-- Fourth repair step of `healMarkdown`: close an odd number of isolated
italic asterisks. -/
def healItalic (s : String) : String :=
  if countItalic s % 2 = 1 then s ++ "*" else s

/-- Embedding of `healMarkdown` (utils.ts lines 18-48): the four repair
steps run in sequence, each counting on the buffer produced by the
previous step (the source mutates one `result` variable). -/
def healMarkdown (content : String) : String :=
  healItalic (healBold (healInline (healFence content)))

/-- The repair algorithm as the specification words it: each of the four
markers is counted independently on the input buffer, and one closing
instance of each marker with an odd count is appended.  Kept separate from
`healMarkdown` (the source), to compare the two. -/
def healMarkdownSpec (content : String) : String :=
  (((content ++ (if countFence content.data % 2 = 1 then "\n```" else "")) ++
    (if countInline content % 2 = 1 then "`" else "")) ++
    (if countBold content.data % 2 = 1 then "**" else "")) ++
    (if countItalic content % 2 = 1 then "*" else "")

-- ============================================================================
-- JSON parsing (model of the JavaScript JSON.parse builtin)
-- ============================================================================

/-- JSON whitespace. -/
def isJsonWs (c : Char) : Bool :=
  c = ' ' || c = '\n' || c = '\t' || c = '\r'

/-- Drop leading JSON whitespace. -/
def skipWs : List Char → List Char
  | c :: rest => if isJsonWs c then skipWs rest else c :: rest
  | [] => []

/-- Parse a run of at least one decimal digit. -/
def parseDigitsAux : Nat → List Char → Nat × List Char
  | acc, c :: rest =>
    if c.isDigit then parseDigitsAux (acc * 10 + (c.toNat - 48)) rest
    else (acc, c :: rest)
  | acc, [] => (acc, [])

/-- Parse a nonempty digit run, or fail. -/
def parseDigits : List Char → Option (Nat × List Char)
  | c :: rest =>
    if c.isDigit then some (parseDigitsAux (c.toNat - 48) rest)
    else none
  | [] => none

/-- Parse the remainder of a string literal (the opening quote already
consumed), handling the common escape sequences; `\u` escapes are not
modelled. -/
def parseStrChars : List Char → Option (List Char × List Char)
  | '"' :: rest => some ([], rest)
  | '\\' :: c :: rest =>
    (match c with
      | '"' => some '"'
      | '\\' => some '\\'
      | '/' => some '/'
      | 'n' => some '\n'
      | 't' => some '\t'
      | 'r' => some '\r'
      | 'b' => some (Char.ofNat 8)
      | 'f' => some (Char.ofNat 12)
      | _ => none).bind fun esc =>
      (parseStrChars rest).map fun (cs, rem) => (esc :: cs, rem)
  | c :: rest => (parseStrChars rest).map fun (cs, rem) => (c :: cs, rem)
  | [] => none

/-- Opening brace character. -/
def lbrace : Char := Char.ofNat 123

/-- Closing brace character. -/
def rbrace : Char := Char.ofNat 125

mutual

/-- Fueled recursive-descent JSON value parser (model of `JSON.parse`;
numbers restricted to integers, fractional and exponent forms fail). -/
def parseVal : Nat → List Char → Option (Json × List Char)
  | 0, _ => none
  | fuel + 1, input =>
    match skipWs input with
    | 'n' :: 'u' :: 'l' :: 'l' :: r => some (.null, r)
    | 't' :: 'r' :: 'u' :: 'e' :: r => some (.bool true, r)
    | 'f' :: 'a' :: 'l' :: 's' :: 'e' :: r => some (.bool false, r)
    | '"' :: r => (parseStrChars r).map fun (cs, rem) => (.str ⟨cs⟩, rem)
    | '-' :: r => (parseDigits r).map fun (n, rem) => (.num (-(n : Int)), rem)
    | '[' :: r =>
      (match skipWs r with
       | c :: rem =>
         if c = ']' then some (.arr [], rem)
         else
           (parseVal fuel (c :: rem)).bind fun (v, rem2) =>
             (parseElems fuel rem2).map fun (vs, rem3) => (.arr (v :: vs), rem3)
       | [] => none)
    | c :: r =>
      if c = lbrace then
        match skipWs r with
        | c2 :: rem =>
          if c2 = rbrace then some (.obj [], rem)
          else if c2 = '"' then
            (parseStrChars rem).bind fun (k, rem2) =>
              match skipWs rem2 with
              | ':' :: rem3 =>
                (parseVal fuel rem3).bind fun (v, rem4) =>
                  (parseFields fuel rem4).map fun (fs, rem5) =>
                    (.obj ((⟨k⟩, v) :: fs), rem5)
              | _ => none
          else none
        | [] => none
      else if c.isDigit then
        (parseDigits (c :: r)).map fun (n, rem) => (.num (n : Int), rem)
      else none
    | [] => none

/-- Remaining array elements: a comma followed by a value, or the closing
bracket. -/
def parseElems : Nat → List Char → Option (List Json × List Char)
  | 0, _ => none
  | fuel + 1, input =>
    match skipWs input with
    | ']' :: rem => some ([], rem)
    | ',' :: rem =>
      (parseVal fuel rem).bind fun (v, rem2) =>
        (parseElems fuel rem2).map fun (vs, rem3) => (v :: vs, rem3)
    | _ => none

/-- Remaining object fields: a comma followed by a key-value pair, or the
closing brace. -/
def parseFields : Nat → List Char → Option (List (String × Json) × List Char)
  | 0, _ => none
  | fuel + 1, input =>
    match skipWs input with
    | ',' :: rem =>
      (match skipWs rem with
       | '"' :: rem2 =>
         (parseStrChars rem2).bind fun (k, rem3) =>
           match skipWs rem3 with
           | ':' :: rem4 =>
             (parseVal fuel rem4).bind fun (v, rem5) =>
               (parseFields fuel rem5).map fun (fs, rem6) => ((⟨k⟩, v) :: fs, rem6)
           | _ => none
       | _ => none)
    | c :: rem => if c = rbrace then some ([], rem) else none
    | [] => none

end

/-- Model of `JSON.parse`: parse one value and require only whitespace to
remain; any failure (the `try`/`catch` in callers) is `none`. -/
def JSONparse (s : String) : Option Json :=
  match parseVal (s.length + 2) s.data with
  | some (v, rest) => if skipWs rest = [] then some v else none
  | none => none

-- ============================================================================
-- Streaming consumption engine (packages/agent StreamText, useAsyncStream)
-- ============================================================================

/-- Observable state of one `useAsyncStream` consumption: the accumulated
text, the `isStreaming` flag, the captured error, and how many times each
terminal callback has fired. -/
structure StreamRun where
  text : String
  isStreaming : Bool
  error : Option String
  completions : Nat
  failures : Nat
deriving Repr

/-- Value of the `cancelled` flag at loop iteration `i` when cancellation
is requested at boundary `cancelAt` (`none`: never requested). -/
def cancelHit (cancelAt : Option Nat) (i : Nat) : Bool :=
  match cancelAt with
  | some k => decide (k ≤ i)
  | none => false

/-- Embedding of the `consume` loop of `useAsyncStream` (agent index.ts
lines 151-175): the `for await` appends each chunk unless the `cancelled`
flag is set (then it breaks); on exhaustion, if not cancelled, either the
completion callback or the error callback fires and `isStreaming` drops,
depending on whether the source failed. -/
def consumeLoop (failure : Option String) (cancelAt : Option Nat) :
    Nat → StreamRun → List String → StreamRun
  | i, st, [] =>
    if cancelHit cancelAt i then st
    else
      match failure with
      | none => { st with isStreaming := false, completions := st.completions + 1 }
      | some e =>
        { st with isStreaming := false, error := some e, failures := st.failures + 1 }
  | i, st, c :: rest =>
    if cancelHit cancelAt i then st
    else consumeLoop failure cancelAt (i + 1) { st with text := st.text ++ c } rest

/-- One full run of `useAsyncStream`'s effect: text reset to empty,
`isStreaming` set, then the consume loop over the source's chunks.
`failure` is the error the source raises after its chunks (or `none` if it
ends normally); `cancelAt = some k` means the cleanup sets the cancellation
flag after `k` chunks have been applied. -/
def useAsyncStreamRun (chunks : List String) (failure : Option String)
    (cancelAt : Option Nat) : StreamRun :=
  consumeLoop failure cancelAt 0
    { text := "", isStreaming := true, error := none, completions := 0, failures := 0 }
    chunks

/-- Concatenation of a list of fragments in order. -/
def concatFrags : List String → String
  | [] => ""
  | c :: rest => c ++ concatFrags rest

-- ============================================================================
-- Push-based source adaptation (readableStreamToAsyncIterable)
-- ============================================================================

/-- Result of one run of the generator `readableStreamToAsyncIterable`
(agent index.ts lines 239-252): the values yielded, whether the reader
lock was released, and whether a read error propagated out. -/
structure ReaderRun where
  yielded : List String
  released : Bool
  errored : Bool
deriving Repr

/-- The `finally` block of the generator: `reader.releaseLock()`. -/
def releaseLock (r : ReaderRun) : ReaderRun :=
  { r with released := true }

/-- The generator's read loop.  `reads` are the values the reader delivers
before its terminal event, `failAtEnd` whether the final read rejects
instead of reporting `done`, and `stopAfter = some k` models the consumer
abandoning the iteration while the generator is suspended at a yield after
`k` values were delivered.  Every exit path, normal, error or early
termination, goes through `releaseLock` because the loop body sits in a
`try`/`finally`.  Falsy (empty) values are not yielded. -/
def readerLoop (failAtEnd : Bool) (stopAfter : Option Nat) :
    List String → List String → ReaderRun
  | [], acc =>
    releaseLock { yielded := acc.reverse, released := false, errored := failAtEnd }
  | v :: rest, acc =>
    if v = "" then readerLoop failAtEnd stopAfter rest acc
    else
      match stopAfter with
      | some k =>
        if acc.length = k then
          releaseLock { yielded := acc.reverse, released := false, errored := false }
        else readerLoop failAtEnd stopAfter rest (v :: acc)
      | none => readerLoop failAtEnd stopAfter rest (v :: acc)

/-- One run of `readableStreamToAsyncIterable`: acquire the reader, then
loop. -/
def readableStreamToAsyncIterableRun (reads : List String) (failAtEnd : Bool)
    (stopAfter : Option Nat) : ReaderRun :=
  readerLoop failAtEnd stopAfter reads []

-- ============================================================================
-- Demo event processor (apps/storybook ProtocolDemo.tsx, processEvent)
-- ============================================================================

/-- Delta payloads of a `content_block_delta` event. -/
inductive DeltaData
  | thinkingDelta (thinking : String)
  | textDelta (text : String)
  | inputJsonDelta (payload : String)
  | otherDelta
deriving Repr

/-- The demo's streaming events (`AIEvent` in ProtocolDemo.tsx). -/
inductive AIEvent
  | messageStart
  | contentBlockStart (btype : String) (index : Nat) (name : String)
  | contentBlockDelta (data : DeltaData)
  | contentBlockStop (index : Nat)
  | messageStop
deriving Repr

/-- Apply a function to the last element of a list, if any. -/
def mapLast (f : α → α) : List α → List α
  | [] => []
  | [a] => [f a]
  | a :: b :: rest => a :: mapLast f (b :: rest)

/-- Apply a function to the element at index `i`, if present. -/
def modifyAt (f : α → α) : Nat → List α → List α
  | _, [] => []
  | 0, a :: rest => f a :: rest
  | i + 1, a :: rest => a :: modifyAt f i rest

/-- The `content_block_delta` branch of `processEvent` (ProtocolDemo.tsx
lines 219-231), applied to the last block: a thinking delta appends to the
reasoning, a text delta appends to the text, and an `input_json_delta`
tries `JSON.parse` on the payload, replacing the input on success and
leaving everything unchanged on failure (the empty `catch`).  The source
writes through a cast; the update is modelled on the matching content
shape. -/
def applyDelta (d : DeltaData) (b : LucidBlock) : LucidBlock :=
  match d, b.content with
  | .thinkingDelta s, .thinking r => { b with content := .thinking (r ++ s) }
  | .textDelta s, .text t => { b with content := .text (t ++ s) }
  | .inputJsonDelta payload, .tool n _ o st e a =>
    (match JSONparse payload with
     | some v => { b with content := .tool n v o st e a }
     | none => b)
  | _, _ => b

/-- The `content_block_stop` branch: mark the indexed block completed and,
for a tool block, set its tool status to `success`. -/
def completeBlock (b : LucidBlock) : LucidBlock :=
  let b2 : LucidBlock := { b with status := .completed }
  match b2.type, b2.content with
  | .tool, .tool n i o _ e a => { b2 with content := .tool n i o .success e a }
  | _, _ => b2

/-- Embedding of `processEvent` (ProtocolDemo.tsx lines 194-248) as a pure
state update on the optional conversation. -/
def processEvent (now : Nat) (prev : Option LucidConversation) (e : AIEvent) :
    Option LucidConversation :=
  match prev with
  | none =>
    match e with
    | .messageStart =>
      some { id := "conv-" ++ toString now, role := .assistant, status := .streaming,
             blocks := [], timestamp := now }
    | _ => none
  | some conv =>
    match e with
    | .messageStart => some conv
    | .contentBlockStart btype index name =>
      let newBlock : LucidBlock :=
        { id := "block-" ++ toString index
        , type := if btype = "thinking" then .thinking
                  else if btype = "tool_use" then .tool else .text
        , status := .streaming
        , content := if btype = "thinking" then .thinking ""
                     else if btype = "tool_use" then
                       .tool name (Json.obj []) none .running none none
                     else .text "" }
      some { conv with blocks := conv.blocks ++ [newBlock] }
    | .contentBlockDelta d =>
      some { conv with blocks := mapLast (applyDelta d) conv.blocks }
    | .contentBlockStop index =>
      some { conv with blocks := modifyAt completeBlock index conv.blocks }
    | .messageStop => some { conv with status := .completed }

/-- Sample conversation for the C9 witness: one tool block, mid-stream. -/
def c9DemoConv : LucidConversation :=
  { id := "conv-0", role := .assistant, status := .streaming,
    blocks := [{ id := "block-1", type := .tool, status := .streaming,
                 content := .tool "search" (Json.obj []) none .running none none }],
    timestamp := 0 }

-- ============================================================================
-- Theorems
-- ============================================================================

/-- C1 counterexample: the round trip through wire format is not lossless
for `pending` either — `pending` is not `running`, yet it round-trips to
`streaming`, not back to itself (the reverse table collapses `pending` and
`streaming` into `input-streaming`). -/
theorem c1_roundtrip_counterexample :
    ToolStatus.pending ≠ ToolStatus.running ∧
    convertToolState (some (convertToolStatusToVercel ToolStatus.pending)) =
      ToolStatus.streaming ∧
    convertToolState (some (convertToolStatusToVercel ToolStatus.pending)) ≠
      ToolStatus.pending := by
  decide

/-- C1 (amended): converting a tool status to wire format and back yields
the status again for every status except `running`, which becomes
`approved`, and `pending`, which becomes `streaming`; in particular a tool
block with status `success` round-trips to `success`. -/
theorem c1_roundtrip_amended :
    (∀ s : ToolStatus,
      convertToolState (some (convertToolStatusToVercel s)) =
        if s = .running then .approved
        else if s = .pending then .streaming
        else s) ∧
    ((convertBlockToParts
        ⟨"b1", .tool, .completed,
          .tool "search" (Json.obj []) none .success none none⟩).head?.bind
        (convertPartToBlock "b1")).bind toolStatusOf = some ToolStatus.success := by
  constructor
  · intro s
    cases s <;> decide
  · rfl

/-- C2: the conversation status aggregated by `fromVercelMessage`'s scan is
`streaming` if any block is streaming, otherwise `error` if any block is in
error, otherwise `completed`; in particular `[completed, streaming, error]`
aggregates to `streaming`, `[error, completed]` to `error` and
`[completed, completed]` to `completed`, and the status of a converted
message is exactly this aggregate of its blocks. -/
theorem c2_status_aggregation :
    (∀ blocks : List LucidBlock,
      statusFromBlocks blocks =
        if ContentStatus.streaming ∈ blocks.map LucidBlock.status then .streaming
        else if ContentStatus.error ∈ blocks.map LucidBlock.status then .error
        else .completed) ∧
    statusFromBlocks
      [⟨"a", .text, .completed, .text ""⟩, ⟨"b", .text, .streaming, .text ""⟩,
       ⟨"c", .text, .error, .text ""⟩] = .streaming ∧
    statusFromBlocks
      [⟨"a", .text, .error, .text ""⟩, ⟨"b", .text, .completed, .text ""⟩] = .error ∧
    statusFromBlocks
      [⟨"a", .text, .completed, .text ""⟩, ⟨"b", .text, .completed, .text ""⟩] =
      .completed ∧
    (∀ gen now m,
      (fromVercelMessage gen none now m).status =
        statusFromBlocks (fromVercelMessage gen none now m).blocks) := by
  refine ⟨?_, by decide, by decide, by decide, fun gen now m => rfl⟩
  have herr : ∀ blocks : List LucidBlock,
      statusLoop .error blocks =
        if ContentStatus.streaming ∈ blocks.map LucidBlock.status then .streaming
        else .error := by
    intro blocks
    induction blocks with
    | nil => simp [statusLoop]
    | cons b rest ih =>
      cases hb : b.status <;> simp [statusLoop, hb, ih]
  intro blocks
  induction blocks with
  | nil => simp [statusFromBlocks, statusLoop]
  | cons b rest ih =>
    simp only [statusFromBlocks] at ih ⊢
    cases hb : b.status <;> simp [statusLoop, hb, ih, herr rest]

/-- C3: over all nine tool statuses, `isToolAwaitingApproval` holds exactly
for `approval-required`, `isToolTerminal` exactly for `success`, `error`
and `denied`, never both at once, the remaining five statuses satisfy
neither, and `isToolExecuting` holds exactly for `running` and `approved`. -/
theorem c3_tool_predicate_partition :
    ∀ (idStr : String) (bstatus : ContentStatus) (name : String) (input : Json)
      (output : Option Json) (err : Option String) (approval : Option ToolApproval)
      (s : ToolStatus),
      (isToolAwaitingApproval ⟨idStr, .tool, bstatus, .tool name input output s err approval⟩ = true ↔
        s = .approvalRequired) ∧
      (isToolTerminal ⟨idStr, .tool, bstatus, .tool name input output s err approval⟩ = true ↔
        (s = .success ∨ s = .error ∨ s = .denied)) ∧
      ¬(isToolAwaitingApproval ⟨idStr, .tool, bstatus, .tool name input output s err approval⟩ = true ∧
        isToolTerminal ⟨idStr, .tool, bstatus, .tool name input output s err approval⟩ = true) ∧
      ((s = .pending ∨ s = .streaming ∨ s = .ready ∨ s = .running ∨ s = .approved) ↔
        (isToolAwaitingApproval ⟨idStr, .tool, bstatus, .tool name input output s err approval⟩ = false ∧
         isToolTerminal ⟨idStr, .tool, bstatus, .tool name input output s err approval⟩ = false)) ∧
      (isToolExecuting ⟨idStr, .tool, bstatus, .tool name input output s err approval⟩ = true ↔
        (s = .running ∨ s = .approved)) := by
  intro idStr bstatus name input output err approval s
  cases s <;>
    simp [isToolAwaitingApproval, isToolTerminal, isToolExecuting, toolStatusOf]

/-- C4: the forward tool-state conversion satisfies exactly the table
(`input-streaming` to `streaming`, ..., `output-denied` to `denied`), a
missing state maps to `pending`, and any state outside the seven wire
states maps to `pending`. -/
theorem c4_forward_tool_state_table :
    (convertToolState (some "input-streaming") = .streaming ∧
     convertToolState (some "input-available") = .ready ∧
     convertToolState (some "approval-requested") = .approvalRequired ∧
     convertToolState (some "approval-responded") = .approved ∧
     convertToolState (some "output-available") = .success ∧
     convertToolState (some "output-error") = .error ∧
     convertToolState (some "output-denied") = .denied ∧
     convertToolState none = .pending) ∧
    (∀ s : String,
      s ∉ (["input-streaming", "input-available", "approval-requested",
            "approval-responded", "output-available", "output-error",
            "output-denied"] : List String) →
      convertToolState (some s) = .pending) := by
  refine ⟨by decide, ?_⟩
  intro s hs
  simp only [List.mem_cons, List.not_mem_nil, or_false, not_or] at hs
  obtain ⟨h1, h2, h3, h4, h5, h6, h7⟩ := hs
  simp [convertToolState, h1, h2, h3, h4, h5, h6, h7]

/-- C4 witness: a state string outside the seven wire states, `"bogus"`,
maps to `pending`. -/
theorem c4_forward_tool_state_table_witness :
    "bogus" ∉ (["input-streaming", "input-available", "approval-requested",
                "approval-responded", "output-available", "output-error",
                "output-denied"] : List String) ∧
    convertToolState (some "bogus") = .pending :=
  ⟨by decide, c4_forward_tool_state_table.2 "bogus" (by decide)⟩

/-- C10: for a tool wire part whose state is one of the seven wire tool
states, the converted block's block-level status is `streaming` exactly for
`input-streaming`, `error` exactly for `output-error`, and `completed` for
every other state. -/
theorem c10_tool_part_block_status :
    ∀ (idStr ptype : String) (toolName : Option String) (callId s : String)
      (input output : Option Json) (errorText : Option String)
      (approval : Option ToolApproval),
      (strStartsWith ptype "tool-" ∨ ptype = "dynamic-tool") →
      s ∈ (["input-streaming", "input-available", "approval-requested",
            "approval-responded", "output-available", "output-error",
            "output-denied"] : List String) →
      (convertPartToBlock idStr
          (.tool ptype toolName callId (some s) input output errorText approval)).map
          LucidBlock.status =
        some (if s = "input-streaming" then ContentStatus.streaming
              else if s = "output-error" then ContentStatus.error
              else ContentStatus.completed) := by
  intro idStr ptype toolName callId s input output errorText approval htag hs
  simp only [convertPartToBlock, if_pos htag, Option.map_some]
  simp only [List.mem_cons, List.not_mem_nil, or_false] at hs
  rcases hs with rfl | rfl | rfl | rfl | rfl | rfl | rfl <;>
    simp [inferBlockStatus, partState]

/-- Helper: `convertPartToBlock` produces a block exactly for the supported
part types. -/
theorem convertPartToBlock_isSome (idStr : String) (p : VercelMessagePart) :
    (convertPartToBlock idStr p).isSome = supportedPart p := by
  cases p with
  | tool ptype toolName callId st input output errorText approval =>
    by_cases h : strStartsWith ptype "tool-" ∨ ptype = "dynamic-tool"
    · rw [show convertPartToBlock idStr (.tool ptype toolName callId st input output
          errorText approval) = if strStartsWith ptype "tool-" ∨ ptype = "dynamic-tool" then
            some { id := idStr, type := .tool,
                   status := inferBlockStatus (.tool ptype toolName callId st input output
                     errorText approval),
                   content := .tool (extractToolName ptype toolName) (input.getD (Json.obj []))
                     output (convertToolState st) errorText approval }
          else none from rfl, if_pos h]
      rcases h with h | h <;> simp [supportedPart, h]
    · rw [show convertPartToBlock idStr (.tool ptype toolName callId st input output
          errorText approval) = if strStartsWith ptype "tool-" ∨ ptype = "dynamic-tool" then
            some { id := idStr, type := .tool,
                   status := inferBlockStatus (.tool ptype toolName callId st input output
                     errorText approval),
                   content := .tool (extractToolName ptype toolName) (input.getD (Json.obj []))
                     output (convertToolState st) errorText approval }
          else none from rfl, if_neg h]
      rcases not_or.mp h with ⟨h1, h2⟩
      simp [supportedPart, h2, Bool.not_eq_true] at h1 ⊢
      exact h1
  | text t st => rfl
  | reasoning t st => rfl
  | file mt fn url => rfl
  | sourceUrl sid url title => rfl
  | sourceDocument sid mt title fn => rfl
  | unknown tag => rfl

/-- C8: forward conversion is total and order-preserving: a part yields a
block exactly when it is supported (unsupported parts yield none, raising
no error), the block list of a converted message is as long as the list of
supported parts, and its `i`-th block is the conversion of the `i`-th
supported part. -/
theorem c8_one_block_per_supported_part :
    (∀ (idStr : String) (p : VercelMessagePart),
      (convertPartToBlock idStr p).isSome = supportedPart p) ∧
    (∀ (gen : Nat → String) (n : Nat) (parts : List VercelMessagePart),
      (collectBlocks gen (fun _ => true) n parts).length =
        (parts.filter supportedPart).length) ∧
    (∀ (gen : Nat → String) (n : Nat) (parts : List VercelMessagePart) (i : Nat),
      (collectBlocks gen (fun _ => true) n parts)[i]? =
        ((parts.filter supportedPart)[i]?).bind fun p => convertPartToBlock (gen (n + i)) p) := by
  refine ⟨convertPartToBlock_isSome, ?_, ?_⟩
  · intro gen n parts
    induction parts generalizing n with
    | nil => rfl
    | cons p rest ih =>
      by_cases hp : supportedPart p = true
      · have hsome : (convertPartToBlock (gen n) p).isSome = true := by
          rw [convertPartToBlock_isSome, hp]
        obtain ⟨b, hb⟩ := Option.isSome_iff_exists.mp hsome
        simp [collectBlocks, hb, List.filter_cons, hp, ih]
      · have hnone : convertPartToBlock (gen n) p = none := by
          have h2 := convertPartToBlock_isSome (gen n) p
          simp only [Bool.not_eq_true] at hp
          rw [hp] at h2
          exact Option.not_isSome_iff_eq_none.mp (by simp [h2])
        simp only [Bool.not_eq_true] at hp
        simp [collectBlocks, hnone, List.filter_cons, hp, ih]
  · intro gen n parts
    induction parts generalizing n with
    | nil => intro i; simp [collectBlocks]
    | cons p rest ih =>
      intro i
      by_cases hp : supportedPart p = true
      · have hsome : (convertPartToBlock (gen n) p).isSome = true := by
          rw [convertPartToBlock_isSome, hp]
        obtain ⟨b, hb⟩ := Option.isSome_iff_exists.mp hsome
        cases i with
        | zero => simp [collectBlocks, hb, List.filter_cons, hp]
        | succ j =>
          have := ih (n + 1) j
          simp only [collectBlocks, if_pos rfl, hb, List.filter_cons, hp, if_true]
          simpa [Nat.add_assoc, Nat.add_comm 1 j] using this
      · have hnone : convertPartToBlock (gen n) p = none := by
          have := convertPartToBlock_isSome (gen n) p
          simp only [Bool.not_eq_true] at hp
          rw [hp] at this
          exact Option.not_isSome_iff_eq_none.mp (by simp [this])
        simp only [Bool.not_eq_true] at hp
        simp [collectBlocks, hnone, List.filter_cons, hp, ih n i]

/-- C7 counterexample: the repair is not independent marker counting.  On
the input with two leading asterisks, a letter and one trailing asterisk,
the code appends only the bold closer (the appended double asterisk
absorbs the trailing single asterisk before italics are counted), while
independent counting on the input would also append an italic closer. -/
theorem c7_markdown_repair_counterexample :
    healMarkdown "**a*" = "**a***" ∧
    healMarkdownSpec "**a*" = "**a****" ∧
    healMarkdown "**a*" ≠ healMarkdownSpec "**a*" := by
  refine ⟨rfl, rfl, ?_⟩
  decide

/-- C7 (amended): the repair counts the four paired markers sequentially,
each on the buffer with the earlier closers already appended (so an
appended bold closer can absorb a trailing single asterisk); an input with
all four counts even is returned unchanged, the unclosed-backtick example
gains a closing backtick, and the unclosed bold-and-italic example gains
both closers. -/
theorem c7_markdown_repair_amended :
    (∀ s : String,
      countFence s.data % 2 = 0 → countInline s % 2 = 0 → countBold s.data % 2 = 0 →
      countItalic s % 2 = 0 → healMarkdown s = s) ∧
    healMarkdown "hello `world" = "hello `world`" ∧
    healMarkdown "**bold and *ital" = "**bold and *ital***" := by
  refine ⟨?_, rfl, rfl⟩
  intro s h1 h2 h3 h4
  rw [healMarkdown, healFence, if_neg (by omega), healInline, if_neg (by omega),
      healBold, if_neg (by omega), healItalic, if_neg (by omega)]

/-- C7 witness: a balanced input is returned unchanged. -/
theorem c7_markdown_repair_amended_witness :
    countFence ("ab").data % 2 = 0 ∧ countInline "ab" % 2 = 0 ∧
    countBold ("ab").data % 2 = 0 ∧ countItalic "ab" % 2 = 0 ∧
    healMarkdown "ab" = "ab" :=
  ⟨by decide, by decide, by decide, by decide,
    c7_markdown_repair_amended.1 "ab" (by decide) (by decide) (by decide) (by decide)⟩

/-- Helper: a cancelled consume loop stops at the cancellation boundary and
appends exactly the fragments before it. -/
theorem consumeLoop_cancel_eq (failure : Option String) (k : Nat) :
    ∀ (chunks : List String) (i : Nat) (st : StreamRun), i ≤ k → k ≤ i + chunks.length →
      consumeLoop failure (some k) i st chunks =
        { st with text := st.text ++ concatFrags (chunks.take (k - i)) } := by
  intro chunks
  induction chunks with
  | nil =>
    intro i st h1 h2
    have hik : k = i := le_antisymm (by simpa using h2) h1
    subst hik
    simp [consumeLoop, cancelHit, concatFrags]
  | cons c rest ih =>
    intro i st h1 h2
    by_cases hik : k ≤ i
    · have : k = i := le_antisymm hik h1
      subst this
      simp [consumeLoop, cancelHit, concatFrags]
    · push_neg at hik
      rw [consumeLoop]
      have hcf : cancelHit (some k) i = false := by
        simp [cancelHit]
        omega
      rw [hcf]
      simp only [Bool.false_eq_true, if_false]
      rw [ih (i + 1) _ (by omega) (by simp at h2 ⊢; omega)]
      have hk : k - i = (k - (i + 1)) + 1 := by omega
      rw [hk, List.take_succ_cons]
      simp [concatFrags, String.append_assoc]

/-- Helper: an uncancelled consume loop over a normally-exhausting source
appends every fragment and fires the completion callback once. -/
theorem consumeLoop_exhaust_eq :
    ∀ (chunks : List String) (i : Nat) (st : StreamRun),
      consumeLoop none none i st chunks =
        { st with text := st.text ++ concatFrags chunks, isStreaming := false,
                  completions := st.completions + 1 } := by
  intro chunks
  induction chunks with
  | nil => intro i st; simp [consumeLoop, cancelHit, concatFrags]
  | cons c rest ih =>
    intro i st
    rw [consumeLoop]
    simp only [cancelHit, Bool.false_eq_true, if_false]
    rw [ih (i + 1)]
    simp [concatFrags, String.append_assoc]

/-- Helper: an uncancelled consume loop over a failing source appends every
fragment, captures the error and fires the error callback once. -/
theorem consumeLoop_fail_eq (e : String) :
    ∀ (chunks : List String) (i : Nat) (st : StreamRun),
      consumeLoop (some e) none i st chunks =
        { st with text := st.text ++ concatFrags chunks, isStreaming := false,
                  error := some e, failures := st.failures + 1 } := by
  intro chunks
  induction chunks with
  | nil => intro i st; simp [consumeLoop, cancelHit, concatFrags]
  | cons c rest ih =>
    intro i st
    rw [consumeLoop]
    simp only [cancelHit, Bool.false_eq_true, if_false]
    rw [ih (i + 1)]
    simp [concatFrags, String.append_assoc]

/-- C5: once cancellation is requested after `k` fragments, the accumulated
text is exactly the first `k` fragments and neither terminal callback ever
fires; an uncancelled consumption ends in exactly one of the two terminal
events — exhaustion fires the completion callback once with no error and
drops the still-receiving flag, failure captures the error, fires the
error callback once and drops the still-receiving flag. -/
theorem c5_consumption_terminal_events :
    (∀ (chunks : List String) (failure : Option String) (k : Nat),
      k ≤ chunks.length →
      (useAsyncStreamRun chunks failure (some k)).text = concatFrags (chunks.take k) ∧
      (useAsyncStreamRun chunks failure (some k)).completions = 0 ∧
      (useAsyncStreamRun chunks failure (some k)).failures = 0 ∧
      (useAsyncStreamRun chunks failure (some k)).error = none) ∧
    (∀ chunks : List String,
      (useAsyncStreamRun chunks none none).isStreaming = false ∧
      (useAsyncStreamRun chunks none none).completions = 1 ∧
      (useAsyncStreamRun chunks none none).failures = 0 ∧
      (useAsyncStreamRun chunks none none).error = none ∧
      (useAsyncStreamRun chunks none none).text = concatFrags chunks) ∧
    (∀ (chunks : List String) (e : String),
      (useAsyncStreamRun chunks (some e) none).isStreaming = false ∧
      (useAsyncStreamRun chunks (some e) none).failures = 1 ∧
      (useAsyncStreamRun chunks (some e) none).completions = 0 ∧
      (useAsyncStreamRun chunks (some e) none).error = some e ∧
      (useAsyncStreamRun chunks (some e) none).text = concatFrags chunks) := by
  refine ⟨?_, ?_, ?_⟩
  · intro chunks failure k hk
    rw [useAsyncStreamRun, consumeLoop_cancel_eq failure k chunks 0 _ (Nat.zero_le k)
      (by simpa using hk)]
    simp
  · intro chunks
    rw [useAsyncStreamRun, consumeLoop_exhaust_eq chunks 0]
    simp
  · intro chunks e
    rw [useAsyncStreamRun, consumeLoop_fail_eq e chunks 0]
    simp

/-- C5 witness: cancelling after one of two fragments leaves exactly the
first fragment and fires no callback. -/
theorem c5_consumption_terminal_events_witness :
    1 ≤ (["a", "b"] : List String).length ∧
    (useAsyncStreamRun ["a", "b"] none (some 1)).text = concatFrags (["a", "b"].take 1) ∧
    (useAsyncStreamRun ["a", "b"] none (some 1)).completions = 0 ∧
    (useAsyncStreamRun ["a", "b"] none (some 1)).failures = 0 ∧
    (useAsyncStreamRun ["a", "b"] none (some 1)).error = none :=
  ⟨by decide, c5_consumption_terminal_events.1 ["a", "b"] none 1 (by decide)⟩

/-- C6: the reader lock taken by `readableStreamToAsyncIterable` is
released on every exit path — normal exhaustion, a read error, and early
termination of the consuming loop — because the read loop sits in a
`try`/`finally`. -/
theorem c6_reader_lock_released :
    ∀ (reads : List String) (failAtEnd : Bool) (stopAfter : Option Nat),
      (readableStreamToAsyncIterableRun reads failAtEnd stopAfter).released = true := by
  intro reads failAtEnd stopAfter
  rw [readableStreamToAsyncIterableRun]
  have h : ∀ acc, (readerLoop failAtEnd stopAfter reads acc).released = true := by
    induction reads with
    | nil => intro acc; rfl
    | cons v rest ih =>
      intro acc
      by_cases hv : v = ""
      · simp [readerLoop, hv, ih]
      · cases stopAfter with
        | none => simp [readerLoop, hv, ih]
        | some k =>
          by_cases hk : acc.length = k <;> simp [readerLoop, hv, hk, releaseLock, ih]
  exact h []

/-- Helper: applying a function to the last element, expressed by
`dropLast`. -/
theorem mapLast_eq_dropLast_append (f : α → α) :
    ∀ (l : List α) (b : α), l.getLast? = some b → mapLast f l = l.dropLast ++ [f b] := by
  intro l
  induction l with
  | nil => intro b h; simp at h
  | cons a rest ih =>
    intro b h
    cases rest with
    | nil =>
      simp only [List.getLast?_singleton, Option.some.injEq] at h
      subst h
      rfl
    | cons c rest2 =>
      have h' : (c :: rest2).getLast? = some b := by
        simpa [List.getLast?_cons_cons] using h
      rw [show mapLast f (a :: c :: rest2) = a :: mapLast f (c :: rest2) from rfl, ih _ h']
      rfl

/-- Helper: a function fixing the last element fixes the whole list under
`mapLast`. -/
theorem mapLast_eq_self (f : α → α) :
    ∀ (l : List α) (b : α), l.getLast? = some b → f b = b → mapLast f l = l := by
  intro l b hl hf
  rw [mapLast_eq_dropLast_append f l b hl, hf]
  exact List.dropLast_append_getLast? b hl

/-- C9: when the last block of the conversation is a tool block, an
`input_json_delta` whose payload fails to parse leaves the conversation
unchanged (the previous parsed input is retained, no error is surfaced),
while a payload that parses replaces the tool input with the parsed
value. -/
theorem c9_partial_json_parse_retained
    (now : Nat) (conv : LucidConversation) (b : LucidBlock) (name : String) (input : Json)
    (output : Option Json) (st : ToolStatus) (err : Option String)
    (approval : Option ToolApproval) (payload : String)
    (hlast : conv.blocks.getLast? = some b)
    (hcontent : b.content = .tool name input output st err approval) :
    (JSONparse payload = none →
      processEvent now (some conv) (.contentBlockDelta (.inputJsonDelta payload)) =
        some conv) ∧
    (∀ v, JSONparse payload = some v →
      processEvent now (some conv) (.contentBlockDelta (.inputJsonDelta payload)) =
        some { conv with blocks := conv.blocks.dropLast ++
          [{ b with content := .tool name v output st err approval }] }) := by
  constructor
  · intro hp
    have hfix : applyDelta (.inputJsonDelta payload) b = b := by
      cases b with
      | mk idStr btype bstatus content =>
        simp only at hcontent
        subst hcontent
        simp [applyDelta, hp]
    rw [show processEvent now (some conv) (.contentBlockDelta (.inputJsonDelta payload)) =
      some { conv with blocks := mapLast (applyDelta (.inputJsonDelta payload)) conv.blocks }
      from rfl]
    rw [mapLast_eq_self _ _ _ hlast hfix]
  · intro v hp
    have hset : applyDelta (.inputJsonDelta payload) b =
        { b with content := .tool name v output st err approval } := by
      cases b with
      | mk idStr btype bstatus content =>
        simp only at hcontent
        subst hcontent
        simp [applyDelta, hp]
    rw [show processEvent now (some conv) (.contentBlockDelta (.inputJsonDelta payload)) =
      some { conv with blocks := mapLast (applyDelta (.inputJsonDelta payload)) conv.blocks }
      from rfl]
    rw [mapLast_eq_dropLast_append _ _ _ hlast, hset]

/-- C9 witness: an incomplete JSON payload fails to parse and the
conversation is returned unchanged. -/
theorem c9_partial_json_parse_retained_witness :
    JSONparse "\x7b\"query\":" = none ∧
    processEvent 0 (some c9DemoConv)
      (.contentBlockDelta (.inputJsonDelta "\x7b\"query\":")) = some c9DemoConv :=
  ⟨rfl,
    (c9_partial_json_parse_retained 0 c9DemoConv
      { id := "block-1", type := .tool, status := .streaming,
        content := .tool "search" (Json.obj []) none .running none none }
      "search" (Json.obj []) none .running none none "\x7b\"query\":" rfl rfl).1 rfl⟩

/-- C10 witness: an `approval-requested` dynamic-tool part converts to a
block with block-level status `completed`. -/
theorem c10_tool_part_block_status_witness :
    (convertPartToBlock "b1"
        (.tool "dynamic-tool" (some "search") "call-1" (some "approval-requested")
          none none none none)).map LucidBlock.status =
      some ContentStatus.completed := by
  have h := c10_tool_part_block_status "b1" "dynamic-tool" (some "search") "call-1"
    "approval-requested" none none none none (Or.inr rfl) (by decide)
  simpa using h
